import Mathlib

/-!
Shallow embedding of the multiprocessor task core of the `nos` kernel
(`src/kernel/task.cpp`, `src/kernel/object_table.cpp`) together with proofs
of the specified properties of `ObjectTable`, `TaskTable`, `Task::Start`,
`Task::SelectNextTaskQueue`, `Task::GetCurrentTask` and the reference-count
release path.  Machine words are modelled as `Nat` (the quantities involved
never overflow 64 bits on the traced paths); fallible and `BugOn`-guarded
code returns `Option`.
-/

namespace Nos

/-- Objects stored in an `ObjectTable` are identified by their address;
we model addresses as naturals. -/
abbrev Obj := Nat

/-- Modelled from the spec: `InvalidObjectId` is declared in `object_table.h`,
which is not part of the excerpt.  It is the distinguished invalid id
(`~0UL` on the 64-bit machine the kernel targets); the only property used is
that it is not a valid slot index. -/
def InvalidObjectId : Nat := 2 ^ 64 - 1

/-- `Object::Get`: increment the reference counter of `o` in the counter map. -/
def refGet (o : Obj) (r : Obj → Nat) : Obj → Nat :=
  fun x => if x = o then r x + 1 else r x

/-- `Object::Put` (the decrement part): drop one reference of `o`. -/
def refPut (o : Obj) (r : Obj → Nat) : Obj → Nat :=
  fun x => if x = o then r x - 1 else r x

/-- State of `ObjectTable`: the fixed slot array (`ObjectArray`, size
`MaxObjects`, modelled as the list length) plus the reference counters of
all objects (the counters live in the objects; we carry them in the state
to reason about `Get`/`Put` effects). -/
structure OTState where
  slots : List (Option Obj)
  refs : Obj → Nat

/-- Content of slot `i`; out-of-range reads as empty. -/
def slotAt (l : List (Option Obj)) (i : Nat) : Option Obj :=
  l.getD i none

/-- The scan of `ObjectTable::Insert`: first index holding `nullptr`. -/
def findFreeSlot : List (Option Obj) → Option Nat
  | [] => none
  | none :: _ => some 0
  | some _ :: rest => (findFreeSlot rest).map (· + 1)

/-- `ObjectTable::Insert`: take a reference on `object`, scan for the first
empty slot; store and return its index, or drop the reference and return
`InvalidObjectId` when the table is full. -/
def otInsert (o : Obj) (s : OTState) : Nat × OTState :=
  let r1 := refGet o s.refs
  match findFreeSlot s.slots with
  | some objectId => (objectId, ⟨s.slots.set objectId (some o), r1⟩)
  | none => (InvalidObjectId, ⟨s.slots, refPut o r1⟩)

/-- `ObjectTable::Remove`: out-of-range ids are a no-op; otherwise clear the
slot and, if it held an object, drop that object's reference. -/
def otRemove (objectId : Nat) (s : OTState) : OTState :=
  if s.slots.length ≤ objectId then s
  else
    match slotAt s.slots objectId with
    | some o => ⟨s.slots.set objectId none, refPut o s.refs⟩
    | none => ⟨s.slots.set objectId none, s.refs⟩

/-- `ObjectTable::Lookup`: out-of-range ids yield null; a populated slot is
returned after taking one extra reference on the object. -/
def otLookup (objectId : Nat) (s : OTState) : Option Obj × OTState :=
  if s.slots.length ≤ objectId then (none, s)
  else
    match slotAt s.slots objectId with
    | some o => (some o, ⟨s.slots, refGet o s.refs⟩)
    | none => (none, s)

/-- The operations a client can run against an `ObjectTable`. -/
inductive OTOp where
  | ins (o : Obj)
  | rem (objectId : Nat)
  | look (objectId : Nat)
deriving DecidableEq

/-- One client operation, as a state transformer. -/
def otStep (s : OTState) (op : OTOp) : OTState :=
  match op with
  | .ins o => (otInsert o s).2
  | .rem j => otRemove j s
  | .look j => (otLookup j s).2

/-- A sequence of client operations. -/
def otRun (s : OTState) (l : List OTOp) : OTState :=
  l.foldl otStep s

/-- Tasks are identified by their address. -/
abbrev Tid := Nat

/-- State of `TaskTable`: the embedded `ObjectTable` (`TaskObjectTable`,
whose slots hold task addresses and whose counter map doubles as the tasks'
reference counters), the hash buckets (`TaskList`), and each task's `Pid`
field.  The hash function (`Stdlib::HashPtr`) is a parameter. -/
structure TTState where
  ot : OTState
  buckets : List (List Tid)
  pid : Tid → Nat

/-- Bucket index of a task: `HashPtr(task) % ArraySize(TaskList)`. -/
def bucketIdx (hash : Tid → Nat) (bs : List (List Tid)) (t : Tid) : Nat :=
  hash t % bs.length

/-- Whether a task's `TableListEntry` is linked into some bucket. -/
def inBucketB (t : Tid) (bs : List (List Tid)) : Bool :=
  bs.any (fun b => b.any (fun x => x = t))

/-- Total number of occurrences of a task across all buckets. -/
def bucketCount (t : Tid) (bs : List (List Tid)) : Nat :=
  (bs.map (fun b => b.count t)).sum

/-- `TaskTable::Insert`: allocate a pid from the embedded `ObjectTable`
(failure yields `false`), record it in the task's `Pid` field, take one
reference (`task->Get()`), and append the task to its hash bucket.
`BugOn(!task->TableListEntry.IsEmpty())` is modelled as `none`. -/
def ttInsert (hash : Tid → Nat) (t : Tid) (s : TTState) : Option (Bool × TTState) :=
  let p := (otInsert t s.ot).1
  let ot1 := (otInsert t s.ot).2
  if p = InvalidObjectId then some (false, ⟨ot1, s.buckets, s.pid⟩)
  else
    let pid1 := fun x => if x = t then p else s.pid x
    let ot2 : OTState := ⟨ot1.slots, refGet t ot1.refs⟩
    if inBucketB t s.buckets then none
    else
      let i := bucketIdx hash s.buckets t
      some (true, ⟨ot2, s.buckets.set i (s.buckets.getD i [] ++ [t]), pid1⟩)

/-- `TaskTable::Remove`: release the pid slot (dropping the `ObjectTable`
reference), unlink the task from its bucket
(`BugOn(task->TableListEntry.IsEmpty())` is modelled as `none`), and drop
one more reference (`task->Put()`). -/
def ttRemove (hash : Tid → Nat) (t : Tid) (s : TTState) : Option TTState :=
  let ot1 := otRemove (s.pid t) s.ot
  let i := bucketIdx hash s.buckets t
  if inBucketB t s.buckets then
    some ⟨⟨ot1.slots, refPut t ot1.refs⟩, s.buckets.set i ((s.buckets.getD i []).erase t), s.pid⟩
  else none

/-- `TaskTable::Lookup`: delegated to the embedded `ObjectTable`. -/
def ttLookup (pid : Nat) (s : TTState) : Option Tid × TTState :=
  ((otLookup pid s.ot).1, ⟨(otLookup pid s.ot).2, s.buckets, s.pid⟩)

/-- The task-local fields touched by `Task::PrepareStart`: the owned kernel
stack and the installed callback (`Stack`, `Function`, `Ctx`);
`none` models a null pointer. -/
structure TaskFields where
  stack : Option Nat
  func : Option Nat
  ctx : Nat

/-- `Task::PrepareStart`: under the preconditions `Stack == nullptr` and
`Function == nullptr` (their `BugOn`s are modelled as `none`), allocate the
stack (`allocOk` models whether `new Stack` succeeds, `addr` the address it
returns), insert into the `TaskTable`; on insertion failure free the stack
again and report failure; only on success install `Function`/`Ctx`. -/
def prepareStart (hash : Tid → Nat) (allocOk : Bool) (addr : Nat) (t : Tid)
    (tk : TaskFields) (s : TTState) (f c : Nat) :
    Option (Bool × TaskFields × TTState) :=
  if tk.stack ≠ none then none
  else if tk.func ≠ none then none
  else if allocOk = false then some (false, tk, s)
  else
    match ttInsert hash t s with
    | none => none
    | some (false, s1) => some (false, ⟨none, tk.func, tk.ctx⟩, s1)
    | some (true, s1) => some (true, ⟨some addr, some f, c⟩, s1)

/-- One step of the CPU scan in `Task::SelectNextTaskQueue`: skip CPUs whose
bit is clear in the mask and the CPU owning the task's current queue; keep
the candidate whose queue has the strictly smaller switch-context counter,
preferring the earlier index on ties.  Queues are identified with their CPU
index (`CpuTable::GetCpu(i).GetTaskQueue()` is per-CPU). -/
def selectStep (counters : Nat → Nat) (current : Option Nat) (cpuMask : Nat)
    (acc : Option Nat) (i : Nat) : Option Nat :=
  if cpuMask &&& (1 <<< i) ≠ 0 then
    if some i = current then acc
    else
      match acc with
      | none => some i
      | some j => if counters j > counters i then some i else some j
  else acc

/-- `Task::SelectNextTaskQueue`: intersect `GetRunningCpus()` with
`CpuAffinity`; when empty return null, otherwise scan CPU indices
`0 .. 8*sizeof(ulong) - 1`. -/
def selectNextTaskQueue (running affinity : Nat) (counters : Nat → Nat)
    (current : Option Nat) : Option Nat :=
  let cpuMask := running &&& affinity
  if cpuMask = 0 then none
  else (List.range 64).foldl (selectStep counters current cpuMask) none

/-- The CPUs `SelectNextTaskQueue` considers: index below the 64-bit word
width, bit set in `GetRunningCpus() & CpuAffinity`, queue distinct from the
task's current queue. -/
def considered (running affinity : Nat) (current : Option Nat) (i : Nat) : Prop :=
  i < 64 ∧ (running &&& affinity) &&& (1 <<< i) ≠ 0 ∧ some i ≠ current

/-- Modelled from the spec: the task states of `task.h` (not in the
excerpt) are distinct constants `New`, `Waiting`, `Running`, `Exited`. -/
def StateNew : Nat := 0

/-- Modelled from the spec: see `StateNew`. -/
def StateWaiting : Nat := 1

/-- Modelled from the spec: see `StateNew`. -/
def StateRunning : Nat := 2

/-- Modelled from the spec: see `StateNew`. -/
def StateExited : Nat := 3

/-- The register frame `Task::Start` memsets to zero and then fills:
only `Rdi` and `Rflags` receive non-zero values (the remaining `Context`
fields of `task.h` stay zero and are not modelled individually). -/
structure Context where
  rdi : Nat
  rflags : Nat
deriving DecidableEq

/-- The initial frame `Task::Start` writes onto the fresh stack: the pushed
return address (`&Task::Exec`) and the zeroed `Context` below it. -/
structure InitFrame where
  retAddr : Nat
  regs : Context
deriving DecidableEq

/-- Outcome of `Task::Start`. -/
inductive StartResult where
  | ok (frame : InitFrame) (stateAtEnqueue : Nat) (queue : Nat)
  | failed
  | crash
  | bugcheck
deriving DecidableEq

/-- `Task::Start`: run `PrepareStart`; on success build the initial frame
(return address `&Task::Exec`, `Rdi = this`, `Rflags = 1 << 9`), set the
state to `StateWaiting`, then call `SelectNextTaskQueue` and invoke
`Insert` on the result — the source dereferences the returned pointer
without a null check, so a null queue is a crash. -/
def start (hash : Tid → Nat) (allocOk : Bool) (addr : Nat) (t : Tid)
    (tk : TaskFields) (s : TTState) (f c : Nat) (execAddr taskPtr : Nat)
    (running affinity : Nat) (counters : Nat → Nat) (current : Option Nat) :
    StartResult :=
  match prepareStart hash allocOk addr t tk s f c with
  | none => StartResult.bugcheck
  | some (false, _, _) => StartResult.failed
  | some (true, _, _) =>
    let frame : InitFrame := ⟨execAddr, ⟨taskPtr, 1 <<< 9⟩⟩
    match selectNextTaskQueue running affinity counters current with
    | none => StartResult.crash
    | some q => StartResult.ok frame StateWaiting q

/-- Modelled from the spec: the stack-header sentinel `StackMagic1` of
`task.h` (not in the excerpt); only (in)equality with itself matters. -/
def StackMagic1 : Nat := 0xBEDABEDA

/-- Modelled from the spec: see `StackMagic1`. -/
def StackMagic2 : Nat := 0xCBDACBDA

/-- Modelled from the spec: the task sentinel `TaskMagic` of `task.h`. -/
def TaskMagic : Nat := 0xABCDEFAB

/-- Modelled from the spec: the stack header of `struct Stack` in `task.h`:
`{Magic1, back-pointer to Task, Magic2}` at the base of the
`StackSize`-aligned region. -/
structure StackHdr where
  magic1 : Nat
  taskPtr : Nat
  magic2 : Nat

/-- The one task field `GetCurrentTask` reads: the `Magic` sentinel. -/
structure TaskHdr where
  magic : Nat

/-- `Task::GetCurrentTask`: mask `rsp` with `~(StackSize-1)` (64-bit
complement, i.e. `2^64 - stackSize`), read the stack header there, check
both stack magics, that `rsp` is not below `&StackBottom[0] + PageSize`
(`bottomOff` is the header offset of `StackBottom`) and not above
`&StackTop[0]` (`topOff`), then check the task's own magic.  A failed
`BugOn` is fatal, modelled as `none`; memory is modelled by the two read
maps `stackAt` (header at a base address) and `taskAt`. -/
def getCurrentTask (stackSize pageSize bottomOff topOff : Nat)
    (stackAt : Nat → StackHdr) (taskAt : Nat → TaskHdr) (rsp : Nat) :
    Option Tid :=
  let base := Nat.land rsp (2 ^ 64 - stackSize)
  let stack := stackAt base
  if stack.magic1 ≠ StackMagic1 then none
  else if stack.magic2 ≠ StackMagic2 then none
  else if rsp < base + bottomOff + pageSize then none
  else if base + topOff < rsp then none
  else if (taskAt stack.taskPtr).magic ≠ TaskMagic then none
  else some stack.taskPtr

/-- The task fields involved in the release path: the reference counter,
the `TaskQueue` back-pointer and the owned stack. -/
structure TaskLife where
  refc : Nat
  queue : Option Nat
  stack : Option Nat
deriving DecidableEq

/-- Outcome of `Task::Put`: the task stays alive with one reference
dropped, or it is destroyed (`stackFrees` counts the `delete Stack`
deallocations performed on the way), or a `BugOn` fired. -/
inductive PutResult where
  | alive (t : TaskLife)
  | destroyed (stackFrees : Nat)
  | bug
deriving DecidableEq

/-- `Task::Release`: `BugOn(TaskQueue != nullptr)`; free the stack if
present and null the field.  Returns the updated task and the number of
stack frees. -/
def release (t : TaskLife) : Option (TaskLife × Nat) :=
  if t.queue ≠ none then none
  else
    match t.stack with
    | some _ => some (⟨t.refc, t.queue, none⟩, 1)
    | none => some (t, 0)

/-- `Task::~Task`: `BugOn(TaskQueue != nullptr)` and
`BugOn(Stack != nullptr)`. -/
def destruct (t : TaskLife) : Option Unit :=
  if t.queue ≠ none then none
  else if t.stack ≠ none then none
  else some ()

/-- `Task::Put`: `BugOn(RefCounter.Get() <= 0)`; decrement; when the count
reaches zero run `Release` and then the destructor. -/
def put (t : TaskLife) : PutResult :=
  if t.refc = 0 then .bug
  else if t.refc = 1 then
    match release t with
    | none => .bug
    | some (t1, frees) =>
      match destruct t1 with
      | none => .bug
      | some _ => .destroyed frees
  else .alive ⟨t.refc - 1, t.queue, t.stack⟩

/-- A one-slot, one-bucket `TaskTable` holding no task yet, with a single
fresh task `0` outside it (refcount 1, pid `InvalidObjectId`): the concrete
state the witnesses and counterexamples below run on. -/
def exTT : TTState := ⟨⟨[none], fun _ => 1⟩, [[]], fun _ => InvalidObjectId⟩

/-- `exTT` after `TaskTable::Insert` of task `0`. -/
def exTT1 : TTState :=
  ⟨⟨[some 0], refGet 0 (refGet 0 (fun _ => 1))⟩, [[0]],
    fun x => if x = 0 then 0 else InvalidObjectId⟩

/-- `exTT1` after `TaskTable::Remove` of task `0`. -/
def exTT2 : TTState :=
  ⟨⟨[none], refPut 0 (refPut 0 (refGet 0 (refGet 0 (fun _ => 1))))⟩, [[]],
    fun x => if x = 0 then 0 else InvalidObjectId⟩

/-! ## Slot array lemmas -/

theorem lt_length_of_slotAt_some {l : List (Option Obj)} {i : Nat} {o : Obj}
    (h : slotAt l i = some o) : i < l.length := by
  by_contra hn
  rw [slotAt, List.getD_eq_default _ _ (Nat.le_of_not_lt hn)] at h
  exact Option.noConfusion h

theorem slotAt_set_self {l : List (Option Obj)} {i : Nat} (v : Option Obj)
    (h : i < l.length) : slotAt (l.set i v) i = v := by
  have h2 : i < (l.set i v).length := by simpa using h
  rw [slotAt, List.getD_eq_getElem _ _ h2, List.getElem_set_self]

theorem slotAt_set_ne {l : List (Option Obj)} {i j : Nat} (v : Option Obj)
    (h : i ≠ j) : slotAt (l.set i v) j = slotAt l j := by
  by_cases hj : j < l.length
  · have hj2 : j < (l.set i v).length := by simpa using hj
    rw [slotAt, slotAt, List.getD_eq_getElem _ _ hj2, List.getD_eq_getElem _ _ hj,
      List.getElem_set_ne h]
  · rw [slotAt, slotAt, List.getD_eq_default _ _ (by simpa using Nat.le_of_not_lt hj),
      List.getD_eq_default _ _ (Nat.le_of_not_lt hj)]

theorem findFreeSlot_some {l : List (Option Obj)} {i : Nat}
    (h : findFreeSlot l = some i) : i < l.length ∧ slotAt l i = none := by
  induction l generalizing i with
  | nil => simp [findFreeSlot] at h
  | cons hd rest ih =>
    cases hd with
    | none =>
      simp [findFreeSlot] at h
      subst h
      exact ⟨Nat.succ_pos _, rfl⟩
    | some a =>
      simp only [findFreeSlot, Option.map_eq_some'] at h
      obtain ⟨i0, h0, hi⟩ := h
      subst hi
      obtain ⟨h1, h2⟩ := ih h0
      exact ⟨Nat.succ_lt_succ h1, by simpa [slotAt] using h2⟩

/-! ## ObjectTable lemmas -/

theorem otLookup_at_some {s : OTState} {id : Nat} {o : Obj}
    (h : slotAt s.slots id = some o) :
    (otLookup id s).1 = some o ∧ (otLookup id s).2.refs o = s.refs o + 1 := by
  have hlt := lt_length_of_slotAt_some h
  unfold otLookup
  simp [Nat.not_le.mpr hlt, h, refGet]

theorem otLookup_after_remove {s : OTState} {id : Nat} {o : Obj}
    (h : slotAt s.slots id = some o) :
    (otLookup id (otRemove id s)).1 = none := by
  have hlt := lt_length_of_slotAt_some h
  unfold otRemove
  simp only [Nat.not_le.mpr hlt, if_false, h]
  unfold otLookup
  have hlt2 : ¬ (s.slots.set id none).length ≤ id := by
    simpa using Nat.not_le.mpr hlt
  simp [hlt2, slotAt_set_self (l := s.slots) none hlt]

theorem otStep_preserves {s : OTState} {op : OTOp} {id : Nat} {o : Obj}
    (hslot : slotAt s.slots id = some o) (hop : op ≠ OTOp.rem id) :
    slotAt (otStep s op).slots id = some o := by
  cases op with
  | ins o' =>
    show slotAt (otInsert o' s).2.slots id = some o
    unfold otInsert
    cases hfs : findFreeSlot s.slots with
    | none => simpa using hslot
    | some j =>
      have hne : j ≠ id := by
        intro he
        have h2 := (findFreeSlot_some hfs).2
        rw [he, hslot] at h2
        exact Option.noConfusion h2
      simp only
      rw [slotAt_set_ne _ hne]
      exact hslot
  | rem j =>
    have hne : j ≠ id := fun he => hop (by rw [he])
    show slotAt (otRemove j s).slots id = some o
    unfold otRemove
    by_cases hlen : s.slots.length ≤ j
    · simpa [hlen] using hslot
    · simp only [hlen, if_false]
      cases hsl : slotAt s.slots j <;>
        simpa [hsl, slotAt_set_ne _ hne] using hslot
  | look j =>
    show slotAt (otLookup j s).2.slots id = some o
    unfold otLookup
    by_cases hlen : s.slots.length ≤ j
    · simpa [hlen] using hslot
    · simp only [hlen, if_false]
      cases hsl : slotAt s.slots j <;> simpa [hsl] using hslot

theorem otRun_preserves {id : Nat} {o : Obj} :
    ∀ (l : List OTOp) (s : OTState), slotAt s.slots id = some o →
      OTOp.rem id ∉ l → slotAt (otRun s l).slots id = some o := by
  intro l
  induction l with
  | nil => exact fun s h _ => h
  | cons op rest ih =>
    intro s h hmem
    rw [otRun, List.foldl_cons]
    have hop : op ≠ OTOp.rem id := by
      intro he
      exact hmem (he ▸ List.mem_cons_self _ _)
    exact ih _ (otStep_preserves h hop) (fun hm => hmem (List.mem_cons_of_mem _ hm))

/-- C4: for every object `o` and every `ObjectTable` state with a free
slot, after `id = Insert(o)` every `Lookup(id)` returns `o` having taken
one extra reference, across any sequence of table operations that does not
contain `Remove(id)`; once `Remove(id)` is executed, `Lookup(id)` returns
null. -/
theorem objectTable_insert_lookup_contract (o : Obj) (s : OTState)
    (hfree : findFreeSlot s.slots ≠ none) :
    ∀ objectId s1, otInsert o s = (objectId, s1) →
    ∀ l : List OTOp, OTOp.rem objectId ∉ l →
      ((otLookup objectId (otRun s1 l)).1 = some o ∧
        (otLookup objectId (otRun s1 l)).2.refs o = (otRun s1 l).refs o + 1) ∧
      (otLookup objectId (otRemove objectId (otRun s1 l))).1 = none := by
  intro objectId s1 hins l hnot
  cases hfs : findFreeSlot s.slots with
  | none => exact absurd hfs hfree
  | some j =>
    simp only [otInsert, hfs] at hins
    injection hins with hid hs1
    subst hid
    subst hs1
    have hslot1 : slotAt (s.slots.set j (some o)) j = some o :=
      slotAt_set_self _ (findFreeSlot_some hfs).1
    have hrun := otRun_preserves l ⟨s.slots.set j (some o), refGet o s.refs⟩ hslot1 hnot
    exact ⟨otLookup_at_some hrun, otLookup_after_remove hrun⟩

/-- Witness for C4 at a one-slot table, `o = 7`, with one unrelated
insertion between `Insert` and the lookups. -/
theorem objectTable_insert_lookup_contract_witness :
    (otLookup 0 (otRun ⟨[some 7], refGet 7 (fun _ => 1)⟩ [OTOp.ins 3])).1 = some 7 ∧
    (otLookup 0 (otRemove 0 (otRun ⟨[some 7], refGet 7 (fun _ => 1)⟩ [OTOp.ins 3]))).1 = none := by
  have h := objectTable_insert_lookup_contract 7 ⟨[none], fun _ => 1⟩ (by decide) 0
    ⟨[some 7], refGet 7 (fun _ => 1)⟩ rfl [OTOp.ins 3] (by decide)
  exact ⟨h.1.1, h.2⟩

/-- C6: when every slot of the `ObjectTable` is occupied, `Insert(o)`
returns `InvalidObjectId` and has no side effects: the slots are unchanged
and `o`'s reference count (indeed the whole counter map) is the same after
the call as before it. -/
theorem objectTable_insert_full_no_side_effects (o : Obj) (s : OTState)
    (hfull : findFreeSlot s.slots = none) :
    (otInsert o s).1 = InvalidObjectId ∧ (otInsert o s).2.slots = s.slots ∧
      (otInsert o s).2.refs = s.refs := by
  unfold otInsert
  rw [hfull]
  refine ⟨rfl, rfl, ?_⟩
  funext x
  by_cases hx : x = o <;> simp [refPut, refGet, hx]

/-- Witness for C6 at a full one-slot table. -/
theorem objectTable_insert_full_no_side_effects_witness :
    (otInsert 5 ⟨[some 9], fun _ => 2⟩).1 = InvalidObjectId ∧
    (otInsert 5 ⟨[some 9], fun _ => 2⟩).2.slots = [some 9] ∧
    (otInsert 5 ⟨[some 9], fun _ => 2⟩).2.refs = (fun _ => 2) :=
  objectTable_insert_full_no_side_effects 5 ⟨[some 9], fun _ => 2⟩ rfl

/-! ## Bucket lemmas -/

theorem getD_set_self_any {α : Type} {l : List α} {i : Nat} (v d : α)
    (h : i < l.length) : (l.set i v).getD i d = v := by
  have h2 : i < (l.set i v).length := by simpa using h
  rw [List.getD_eq_getElem _ _ h2, List.getElem_set_self]

theorem getD_mem_of_lt {α : Type} {l : List α} {i : Nat} (d : α)
    (h : i < l.length) : l.getD i d ∈ l := by
  rw [List.getD_eq_getElem _ _ h]
  exact List.getElem_mem h

theorem inBucketB_false_iff {t : Tid} {bs : List (List Tid)} :
    inBucketB t bs = false ↔ ∀ b ∈ bs, t ∉ b := by
  simp [inBucketB]

theorem inBucketB_true_of_mem {t : Tid} {bs : List (List Tid)} {b : List Tid}
    (hb : b ∈ bs) (ht : t ∈ b) : inBucketB t bs = true := by
  simp only [inBucketB, List.any_eq_true]
  exact ⟨b, hb, by simpa using ht⟩

theorem bucketCount_eq_zero {t : Tid} {bs : List (List Tid)}
    (h : ∀ b ∈ bs, t ∉ b) : bucketCount t bs = 0 := by
  induction bs with
  | nil => rfl
  | cons b rest ih =>
    have hb : b.count t = 0 :=
      List.count_eq_zero.mpr (h b (List.mem_cons_self _ _))
    have hr : bucketCount t rest = 0 :=
      ih (fun x hx => h x (List.mem_cons_of_mem _ hx))
    simp [bucketCount, hb]
    simpa [bucketCount] using hr

theorem bucketCount_set {t : Tid} {bs : List (List Tid)} {i : Nat} (v : List Tid)
    (hlt : i < bs.length) (h : ∀ b ∈ bs, t ∉ b) :
    bucketCount t (bs.set i v) = v.count t := by
  induction bs generalizing i with
  | nil => simp at hlt
  | cons b rest ih =>
    cases i with
    | zero =>
      have hr : bucketCount t rest = 0 :=
        bucketCount_eq_zero (fun x hx => h x (List.mem_cons_of_mem _ hx))
      simp [bucketCount, List.set]
      simpa [bucketCount] using hr
    | succ i0 =>
      have hb : b.count t = 0 :=
        List.count_eq_zero.mpr (h b (List.mem_cons_self _ _))
      have hstep := ih (i := i0) (by simpa using hlt)
        (fun x hx => h x (List.mem_cons_of_mem _ hx))
      simp [bucketCount, List.set, hb]
      simpa [bucketCount] using hstep

/-! ## TaskTable shape lemmas -/

theorem ttInsert_success_shape {hash : Tid → Nat} {t : Tid} {s s1 : TTState}
    (hins : ttInsert hash t s = some (true, s1)) :
    ∃ j, findFreeSlot s.ot.slots = some j ∧ j ≠ InvalidObjectId ∧
      inBucketB t s.buckets = false ∧
      s1 = ⟨⟨s.ot.slots.set j (some t), refGet t (refGet t s.ot.refs)⟩,
        s.buckets.set (bucketIdx hash s.buckets t)
          (s.buckets.getD (bucketIdx hash s.buckets t) [] ++ [t]),
        fun x => if x = t then j else s.pid x⟩ := by
  unfold ttInsert otInsert at hins
  cases hfs : findFreeSlot s.ot.slots with
  | none =>
    rw [hfs] at hins
    simp at hins
  | some j =>
    rw [hfs] at hins
    by_cases hj : j = InvalidObjectId
    · simp [hj] at hins
    · simp only [hj, if_false] at hins
      by_cases hb : inBucketB t s.buckets
      · simp [hb] at hins
      · rw [Bool.not_eq_true] at hb
        simp only [hb, Bool.false_eq_true, if_false, Option.some.injEq,
          Prod.mk.injEq, true_and] at hins
        exact ⟨j, rfl, hj, hb, hins.symm⟩

theorem ttRemove_after_insert_shape {hash : Tid → Nat} {t : Tid} {s s1 : TTState}
    (hbne : s.buckets ≠ [])
    (hins : ttInsert hash t s = some (true, s1)) :
    ∃ j, findFreeSlot s.ot.slots = some j ∧ s1.pid t = j ∧
      ttRemove hash t s1 =
        some ⟨⟨s.ot.slots.set j none, refPut t (refPut t s1.ot.refs)⟩,
          s.buckets.set (bucketIdx hash s.buckets t)
            (s.buckets.getD (bucketIdx hash s.buckets t) []),
          s1.pid⟩ := by
  obtain ⟨j, hfs, hj, hb, hs1⟩ := ttInsert_success_shape hins
  have hil : bucketIdx hash s.buckets t < s.buckets.length :=
    Nat.mod_lt _ (List.length_pos.mpr hbne)
  have hjl : j < s.ot.slots.length := (findFreeSlot_some hfs).1
  refine ⟨j, hfs, ?_, ?_⟩
  · rw [hs1]; simp
  · subst hs1
    unfold ttRemove
    have hpid : (fun x => if x = t then j else s.pid x) t = j := by simp
    have hlen1 : ¬ (s.ot.slots.set j (some t)).length ≤ j := by
      simpa using Nat.not_le.mpr hjl
    have hslot1 : slotAt (s.ot.slots.set j (some t)) j = some t :=
      slotAt_set_self _ hjl
    have hrem : otRemove j ⟨s.ot.slots.set j (some t), refGet t (refGet t s.ot.refs)⟩ =
        ⟨(s.ot.slots.set j (some t)).set j none,
          refPut t (refGet t (refGet t s.ot.refs))⟩ := by
      unfold otRemove
      simp [hslot1, Nat.not_le.mpr hjl]
    have hblen : (s.buckets.set (bucketIdx hash s.buckets t)
        (s.buckets.getD (bucketIdx hash s.buckets t) [] ++ [t])).length =
        s.buckets.length := by simp
    have hbi : bucketIdx hash
        (s.buckets.set (bucketIdx hash s.buckets t)
          (s.buckets.getD (bucketIdx hash s.buckets t) [] ++ [t])) t =
        bucketIdx hash s.buckets t := by
      unfold bucketIdx
      simp
    have hmem : t ∈ (s.buckets.set (bucketIdx hash s.buckets t)
        (s.buckets.getD (bucketIdx hash s.buckets t) [] ++ [t])).getD
          (bucketIdx hash s.buckets t) [] := by
      rw [getD_set_self_any _ _ hil]
      simp
    have hin : inBucketB t (s.buckets.set (bucketIdx hash s.buckets t)
        (s.buckets.getD (bucketIdx hash s.buckets t) [] ++ [t])) = true := by
      refine inBucketB_true_of_mem ?_ hmem
      refine getD_mem_of_lt _ ?_
      rw [hblen]
      exact hil
    have htnb : t ∉ s.buckets.getD (bucketIdx hash s.buckets t) [] :=
      (inBucketB_false_iff.mp hb) _ (getD_mem_of_lt _ hil)
    have herase : ((s.buckets.set (bucketIdx hash s.buckets t)
        (s.buckets.getD (bucketIdx hash s.buckets t) [] ++ [t])).getD
          (bucketIdx hash s.buckets t) []).erase t =
        s.buckets.getD (bucketIdx hash s.buckets t) [] := by
      rw [getD_set_self_any _ _ hil, List.erase_append_right _ htnb,
        List.erase_cons_head, List.append_nil]
    simp only [hpid, hrem, hbi, hin, if_true, herase, List.set_set]

/-- C1 (corrected): a freshly constructed task has pid `InvalidObjectId`;
`TaskTable::Insert` assigns a pid different from `InvalidObjectId` and links
the task into exactly one bucket; `TaskTable::Remove` unlinks it from every
bucket but leaves the `Pid` field at the stale assigned value — `Remove`
does not reset the pid to `InvalidObjectId`, so after removal the claimed
equivalence "pid = InvalidObjectId ⇔ not in the table" fails in one
direction. -/
theorem taskTable_pid_lifecycle (hash : Tid → Nat) (t : Tid) (s s1 : TTState)
    (_hpid0 : s.pid t = InvalidObjectId)
    (hbne : s.buckets ≠ [])
    (hins : ttInsert hash t s = some (true, s1)) :
    s1.pid t ≠ InvalidObjectId ∧
    bucketCount t s1.buckets = 1 ∧
    (ttRemove hash t s1).isSome = true ∧
    ∀ s2, ttRemove hash t s1 = some s2 →
      inBucketB t s2.buckets = false ∧ s2.pid t = s1.pid t ∧
        s2.pid t ≠ InvalidObjectId := by
  obtain ⟨j, hfs, hj, hb, hs1⟩ := ttInsert_success_shape hins
  obtain ⟨j2, hfs2, hpidj, hrm⟩ := ttRemove_after_insert_shape hbne hins
  rw [hfs] at hfs2
  have hj2 := Option.some.inj hfs2
  subst hj2
  have hil : bucketIdx hash s.buckets t < s.buckets.length :=
    Nat.mod_lt _ (List.length_pos.mpr hbne)
  have hall : ∀ b ∈ s.buckets, t ∉ b := inBucketB_false_iff.mp hb
  have hbk1 : s1.buckets = s.buckets.set (bucketIdx hash s.buckets t)
      (s.buckets.getD (bucketIdx hash s.buckets t) [] ++ [t]) := by rw [hs1]
  refine ⟨?_, ?_, ?_, ?_⟩
  · rw [hpidj]; exact hj
  · rw [hbk1, bucketCount_set _ hil hall]
    have hnb : t ∉ s.buckets.getD (bucketIdx hash s.buckets t) [] :=
      hall _ (getD_mem_of_lt _ hil)
    rw [List.count_append, List.count_eq_zero.mpr hnb]
    simp
  · rw [hrm]; rfl
  · intro s2 hs2
    rw [hrm] at hs2
    injection hs2 with hs2
    have hbk2 : s2.buckets = s.buckets.set (bucketIdx hash s.buckets t)
        (s.buckets.getD (bucketIdx hash s.buckets t) []) := by rw [← hs2]
    have hpid2 : s2.pid = s1.pid := by rw [← hs2]
    refine ⟨?_, ?_, ?_⟩
    · rw [hbk2, inBucketB_false_iff]
      intro b hbmem
      rcases List.mem_or_eq_of_mem_set hbmem with h | h
      · exact hall b h
      · exact h ▸ hall _ (getD_mem_of_lt _ hil)
    · rw [hpid2]
    · rw [hpid2, hpidj]; exact hj

/-- C1 counterexample: on a one-slot, one-bucket table, insert task `0`
(assigning pid `0`) and remove it again; afterwards the task sits in no
bucket but its pid field is still `0`, not `InvalidObjectId`. -/
theorem taskTable_pid_not_reset_cex :
    ttInsert (fun _ => 0) 0 exTT = some (true, exTT1) ∧
    ttRemove (fun _ => 0) 0 exTT1 = some exTT2 ∧
    exTT2.pid 0 = 0 ∧ inBucketB 0 exTT2.buckets = false ∧
    (0 : Nat) ≠ InvalidObjectId :=
  ⟨rfl, rfl, rfl, rfl, by decide⟩

/-- Witness for the amended C1 at the concrete one-slot table. -/
theorem taskTable_pid_lifecycle_witness :
    exTT1.pid 0 ≠ InvalidObjectId ∧ bucketCount 0 exTT1.buckets = 1 ∧
    (ttRemove (fun _ => 0) 0 exTT1).isSome = true ∧
    (inBucketB 0 exTT2.buckets = false ∧ exTT2.pid 0 = exTT1.pid 0 ∧
      exTT2.pid 0 ≠ InvalidObjectId) := by
  have h := taskTable_pid_lifecycle (fun _ => 0) 0 exTT exTT1 rfl (by decide) rfl
  exact ⟨h.1, h.2.1, h.2.2.1, h.2.2.2 exTT2 rfl⟩

/-- C2 (corrected): for a task registered by a successful
`TaskTable::Insert`, `Lookup(task.pid)` returns the task; after
`TaskTable::Remove` the lookup returns null and the reference count has
dropped by exactly **two** relative to its value before the `Remove` — the
table holds two references per task (one in the pid `ObjectTable` slot and
one for the bucket list), not one. -/
theorem taskTable_lookup_refcount (hash : Tid → Nat) (t : Tid) (s s1 : TTState)
    (hbne : s.buckets ≠ [])
    (hins : ttInsert hash t s = some (true, s1)) :
    (ttLookup (s1.pid t) s1).1 = some t ∧
    s1.ot.refs t = s.ot.refs t + 2 ∧
    ∀ s2, ttRemove hash t s1 = some s2 →
      (ttLookup (s1.pid t) s2).1 = none ∧ s2.ot.refs t + 2 = s1.ot.refs t := by
  obtain ⟨j, hfs, hj, hb, hs1⟩ := ttInsert_success_shape hins
  obtain ⟨j2, hfs2, hpidj, hrm⟩ := ttRemove_after_insert_shape hbne hins
  rw [hfs] at hfs2
  have hj2 := Option.some.inj hfs2
  subst hj2
  have hjl : j < s.ot.slots.length := (findFreeSlot_some hfs).1
  have hslots1 : s1.ot.slots = s.ot.slots.set j (some t) := by rw [hs1]
  have hrefs1 : s1.ot.refs = refGet t (refGet t s.ot.refs) := by rw [hs1]
  have hslot1 : slotAt s1.ot.slots j = some t := by
    rw [hslots1]; exact slotAt_set_self _ hjl
  refine ⟨?_, ?_, ?_⟩
  · rw [hpidj]
    exact (otLookup_at_some hslot1).1
  · rw [hrefs1]; simp [refGet]
  · intro s2 hs2
    rw [hrm] at hs2
    injection hs2 with hs2
    have hslots2 : s2.ot.slots = s.ot.slots.set j none := by rw [← hs2]
    have hrefs2 : s2.ot.refs = refPut t (refPut t s1.ot.refs) := by rw [← hs2]
    refine ⟨?_, ?_⟩
    · rw [hpidj]
      have hnone : slotAt s2.ot.slots j = none := by
        rw [hslots2]; exact slotAt_set_self _ hjl
      show (otLookup j s2.ot).1 = none
      unfold otLookup
      by_cases hlen : s2.ot.slots.length ≤ j
      · simp [hlen]
      · simp [hlen, hnone]
    · rw [hrefs2, hrefs1]
      simp [refPut, refGet]

/-- C2 counterexample: on a one-slot, one-bucket table the task's reference
count goes 1 → 3 across `Insert` and back 3 → 1 across `Remove`: the drop
at `Remove` is two, not one. -/
theorem taskTable_refcount_drop_two_cex :
    ttInsert (fun _ => 0) 0 exTT = some (true, exTT1) ∧
    ttRemove (fun _ => 0) 0 exTT1 = some exTT2 ∧
    exTT.ot.refs 0 = 1 ∧ exTT1.ot.refs 0 = 3 ∧ exTT2.ot.refs 0 = 1 :=
  ⟨rfl, rfl, rfl, rfl, rfl⟩

/-- Witness for the amended C2 at the concrete one-slot table. -/
theorem taskTable_lookup_refcount_witness :
    (ttLookup (exTT1.pid 0) exTT1).1 = some 0 ∧
    exTT1.ot.refs 0 = exTT.ot.refs 0 + 2 ∧
    ((ttLookup (exTT1.pid 0) exTT2).1 = none ∧
      exTT2.ot.refs 0 + 2 = exTT1.ot.refs 0) := by
  have h := taskTable_lookup_refcount (fun _ => 0) 0 exTT exTT1 (by decide) rfl
  exact ⟨h.1, h.2.1, h.2.2 exTT2 rfl⟩

/-! ## PrepareStart failure cleanliness -/

theorem ttInsert_fail_shape {hash : Tid → Nat} {t : Tid} {s s1 : TTState}
    (hcap : s.ot.slots.length ≤ InvalidObjectId)
    (h : ttInsert hash t s = some (false, s1)) :
    s1.ot.slots = s.ot.slots ∧ s1.ot.refs = s.ot.refs ∧
    s1.buckets = s.buckets ∧ s1.pid = s.pid := by
  unfold ttInsert otInsert at h
  cases hfs : findFreeSlot s.ot.slots with
  | some j =>
    rw [hfs] at h
    have hj : j ≠ InvalidObjectId :=
      Nat.ne_of_lt (Nat.lt_of_lt_of_le (findFreeSlot_some hfs).1 hcap)
    simp only [hj, if_false] at h
    by_cases hb : inBucketB t s.buckets <;> simp [hb] at h
  | none =>
    rw [hfs, if_pos rfl] at h
    simp only [Option.some.injEq, Prod.mk.injEq, true_and] at h
    rw [← h]
    refine ⟨rfl, ?_, rfl, rfl⟩
    funext x
    by_cases hx : x = t <;> simp [refPut, refGet, hx]

/-- C8: whenever `Task::PrepareStart` fails — the stack allocation returns
null or the `TaskTable` insertion fails — it fails cleanly: the task owns
no stack and has no function installed, the whole `TaskTable` state
(slots, reference counts, buckets, pid fields) is exactly as before the
call, the task sits in no bucket, and its pid is still `InvalidObjectId`. -/
theorem prepareStart_fail_clean (hash : Tid → Nat) (allocOk : Bool) (addr : Nat)
    (t : Tid) (tk tk1 : TaskFields) (s s1 : TTState) (f c : Nat)
    (hcap : s.ot.slots.length ≤ InvalidObjectId)
    (hnb : inBucketB t s.buckets = false)
    (hfresh : s.pid t = InvalidObjectId)
    (hres : prepareStart hash allocOk addr t tk s f c = some (false, tk1, s1)) :
    tk1.stack = none ∧ tk1.func = none ∧
    s1.ot.slots = s.ot.slots ∧ s1.ot.refs = s.ot.refs ∧
    s1.buckets = s.buckets ∧ s1.pid = s.pid ∧
    inBucketB t s1.buckets = false ∧ s1.pid t = InvalidObjectId := by
  unfold prepareStart at hres
  by_cases hst : tk.stack = none
  case neg => simp [hst] at hres
  case pos =>
  by_cases hfn : tk.func = none
  case neg => simp [hst, hfn] at hres
  case pos =>
  rw [if_neg (fun hh => hh hst), if_neg (fun hh => hh hfn)] at hres
  cases allocOk with
  | false =>
    rw [if_pos rfl] at hres
    simp only [Option.some.injEq, Prod.mk.injEq, true_and] at hres
    obtain ⟨htk, hs⟩ := hres
    rw [← htk, ← hs]
    exact ⟨hst, hfn, rfl, rfl, rfl, rfl, hnb, hfresh⟩
  | true =>
    rw [if_neg (fun hh => Bool.noConfusion hh)] at hres
    cases hins : ttInsert hash t s with
    | none => rw [hins] at hres; exact Option.noConfusion hres
    | some p =>
      rw [hins] at hres
      cases p with
      | mk ok s1i =>
        cases ok with
        | true => simp at hres
        | false =>
          simp only [Option.some.injEq, Prod.mk.injEq, true_and] at hres
          obtain ⟨htk, hs⟩ := hres
          obtain ⟨h1, h2, h3, h4⟩ := ttInsert_fail_shape hcap hins
          rw [← hs, ← htk]
          refine ⟨rfl, hfn, h1, h2, h3, h4, ?_, ?_⟩
          · rw [h3]; exact hnb
          · rw [h4]; exact hfresh

/-- Witness for C8: `PrepareStart` on a full one-slot table fails and
leaves no trace. -/
theorem prepareStart_fail_clean_witness :
    (⟨none, none, 0⟩ : TaskFields).stack = none ∧
    (⟨none, none, 0⟩ : TaskFields).func = none ∧
    (⟨⟨[some 9], refPut 0 (refGet 0 (fun _ => 2))⟩, [[]],
        fun _ => InvalidObjectId⟩ : TTState).ot.slots = [some 9] ∧
    (⟨⟨[some 9], refPut 0 (refGet 0 (fun _ => 2))⟩, [[]],
        fun _ => InvalidObjectId⟩ : TTState).ot.refs = (fun _ => 2) ∧
    (⟨⟨[some 9], refPut 0 (refGet 0 (fun _ => 2))⟩, [[]],
        fun _ => InvalidObjectId⟩ : TTState).buckets = [[]] ∧
    (⟨⟨[some 9], refPut 0 (refGet 0 (fun _ => 2))⟩, [[]],
        fun _ => InvalidObjectId⟩ : TTState).pid = (fun _ => InvalidObjectId) ∧
    inBucketB 0 (⟨⟨[some 9], refPut 0 (refGet 0 (fun _ => 2))⟩, [[]],
        fun _ => InvalidObjectId⟩ : TTState).buckets = false ∧
    (⟨⟨[some 9], refPut 0 (refGet 0 (fun _ => 2))⟩, [[]],
        fun _ => InvalidObjectId⟩ : TTState).pid 0 = InvalidObjectId :=
  prepareStart_fail_clean (fun _ => 0) true 4096 0 ⟨none, none, 0⟩ ⟨none, none, 0⟩
    ⟨⟨[some 9], fun _ => 2⟩, [[]], fun _ => InvalidObjectId⟩
    ⟨⟨[some 9], refPut 0 (refGet 0 (fun _ => 2))⟩, [[]], fun _ => InvalidObjectId⟩
    7 3 (by decide) rfl rfl rfl

/-! ## SelectNextTaskQueue: least-loaded choice with lowest-index ties -/

theorem selectStep_good (counters : Nat → Nat) (current : Option Nat) (m k : Nat)
    (acc : Option Nat)
    (h1 : acc = none → ∀ i, i < k → ¬(m &&& (1 <<< i) ≠ 0 ∧ some i ≠ current))
    (h2 : ∀ j, acc = some j → j < k ∧ (m &&& (1 <<< j) ≠ 0 ∧ some j ≠ current) ∧
      ∀ i, i < k → (m &&& (1 <<< i) ≠ 0 ∧ some i ≠ current) →
        counters j ≤ counters i ∧ (counters i ≤ counters j → j ≤ i)) :
    (selectStep counters current m acc k = none →
      ∀ i, i < k + 1 → ¬(m &&& (1 <<< i) ≠ 0 ∧ some i ≠ current)) ∧
    (∀ j, selectStep counters current m acc k = some j →
      j < k + 1 ∧ (m &&& (1 <<< j) ≠ 0 ∧ some j ≠ current) ∧
      ∀ i, i < k + 1 → (m &&& (1 <<< i) ≠ 0 ∧ some i ≠ current) →
        counters j ≤ counters i ∧ (counters i ≤ counters j → j ≤ i)) := by
  by_cases hbit : m &&& (1 <<< k) ≠ 0
  · by_cases hcur : some k = current
    · have hstep : selectStep counters current m acc k = acc := by
        unfold selectStep
        rw [if_pos hbit, if_pos hcur]
      rw [hstep]
      constructor
      · intro hn i hik hP
        rcases Nat.lt_succ_iff_lt_or_eq.mp hik with h | h
        · exact h1 hn i h hP
        · subst h; exact hP.2 hcur
      · intro j hj
        obtain ⟨hjk, hPj, hmin⟩ := h2 j hj
        refine ⟨Nat.lt_succ_of_lt hjk, hPj, ?_⟩
        intro i hik hP
        rcases Nat.lt_succ_iff_lt_or_eq.mp hik with h | h
        · exact hmin i h hP
        · subst h; exact absurd hcur hP.2
    · cases acc with
      | none =>
        have hstep : selectStep counters current m none k = some k := by
          unfold selectStep
          rw [if_pos hbit, if_neg hcur]
        rw [hstep]
        constructor
        · intro hn; exact Option.noConfusion hn
        · intro j hj
          have hkj := Option.some.inj hj
          subst hkj
          refine ⟨Nat.lt_succ_self _, ⟨hbit, hcur⟩, ?_⟩
          intro i hik hP
          rcases Nat.lt_succ_iff_lt_or_eq.mp hik with h | h
          · exact absurd hP (h1 rfl i h)
          · subst h; exact ⟨Nat.le_refl _, fun _ => Nat.le_refl _⟩
      | some j0 =>
        obtain ⟨hj0k, hPj0, hmin0⟩ := h2 j0 rfl
        by_cases hgt : counters j0 > counters k
        · have hstep : selectStep counters current m (some j0) k = some k := by
            unfold selectStep
            rw [if_pos hbit, if_neg hcur]
            simp [hgt]
          rw [hstep]
          constructor
          · intro hn; exact Option.noConfusion hn
          · intro j hj
            have hkj := Option.some.inj hj
            subst hkj
            refine ⟨Nat.lt_succ_self _, ⟨hbit, hcur⟩, ?_⟩
            intro i hik hP
            rcases Nat.lt_succ_iff_lt_or_eq.mp hik with h | h
            · have hji := hmin0 i h hP
              constructor
              · omega
              · intro hik2
                omega
            · subst h; exact ⟨Nat.le_refl _, fun _ => Nat.le_refl _⟩
        · have hstep : selectStep counters current m (some j0) k = some j0 := by
            unfold selectStep
            rw [if_pos hbit, if_neg hcur]
            simp [hgt]
          rw [hstep]
          constructor
          · intro hn; exact Option.noConfusion hn
          · intro j hj
            have hjj := Option.some.inj hj
            subst hjj
            refine ⟨Nat.lt_succ_of_lt hj0k, hPj0, ?_⟩
            intro i hik hP
            rcases Nat.lt_succ_iff_lt_or_eq.mp hik with h | h
            · exact hmin0 i h hP
            · subst h
              constructor
              · omega
              · intro _
                omega
  · have hstep : selectStep counters current m acc k = acc := by
      unfold selectStep
      rw [if_neg hbit]
    rw [hstep]
    constructor
    · intro hn i hik hP
      rcases Nat.lt_succ_iff_lt_or_eq.mp hik with h | h
      · exact h1 hn i h hP
      · subst h; exact hbit hP.1
    · intro j hj
      obtain ⟨hjk, hPj, hmin⟩ := h2 j hj
      refine ⟨Nat.lt_succ_of_lt hjk, hPj, ?_⟩
      intro i hik hP
      rcases Nat.lt_succ_iff_lt_or_eq.mp hik with h | h
      · exact hmin i h hP
      · subst h; exact absurd hP.1 hbit

theorem selectFold_good (counters : Nat → Nat) (current : Option Nat) (m : Nat) :
    ∀ n : Nat,
      ((List.range n).foldl (selectStep counters current m) none = none →
        ∀ i, i < n → ¬(m &&& (1 <<< i) ≠ 0 ∧ some i ≠ current)) ∧
      (∀ j, (List.range n).foldl (selectStep counters current m) none = some j →
        j < n ∧ (m &&& (1 <<< j) ≠ 0 ∧ some j ≠ current) ∧
        ∀ i, i < n → (m &&& (1 <<< i) ≠ 0 ∧ some i ≠ current) →
          counters j ≤ counters i ∧ (counters i ≤ counters j → j ≤ i)) := by
  intro n
  induction n with
  | zero =>
    constructor
    · intro _ i hi
      exact absurd hi (Nat.not_lt_zero i)
    · intro j hj
      simp [List.range_zero] at hj
  | succ k ih =>
    rw [List.range_succ, List.foldl_append, List.foldl_cons, List.foldl_nil]
    exact selectStep_good counters current m k _ ih.1 ih.2

/-- C5: `SelectNextTaskQueue` considers exactly the CPUs whose bit is set
in `GetRunningCpus() & CpuAffinity` and whose queue is not the task's
current queue: any queue it returns belongs to a considered CPU with the
lowest context-switch counter, ties broken in favor of the lowest CPU
index, and it returns null exactly when no CPU is considered. -/
theorem selectNextTaskQueue_least_loaded (running affinity : Nat)
    (counters : Nat → Nat) (current : Option Nat) :
    (∀ j, selectNextTaskQueue running affinity counters current = some j →
      considered running affinity current j ∧
      ∀ i, considered running affinity current i →
        counters j ≤ counters i ∧ (counters i ≤ counters j → j ≤ i)) ∧
    (selectNextTaskQueue running affinity counters current = none →
      ∀ i, ¬considered running affinity current i) := by
  unfold selectNextTaskQueue considered
  by_cases hm : running &&& affinity = 0
  · rw [if_pos hm]
    constructor
    · intro j hj
      exact Option.noConfusion hj
    · intro _ i hP
      apply hP.2.1
      rw [hm]
      exact Nat.zero_and _
  · rw [if_neg hm]
    have h := selectFold_good counters current (running &&& affinity) 64
    constructor
    · intro j hj
      obtain ⟨hj64, hPj, hmin⟩ := h.2 j hj
      exact ⟨⟨hj64, hPj.1, hPj.2⟩, fun i hPi => hmin i hPi.1 ⟨hPi.2.1, hPi.2.2⟩⟩
    · intro hn i hPi
      exact h.1 hn i hPi.1 ⟨hPi.2.1, hPi.2.2⟩

/-- Witness for C5: CPUs `{0, 1, 3}` running, full affinity, current queue
on CPU 0; CPU 3 has the smallest counter among the considered CPUs `{1, 3}`
and is chosen. -/
theorem selectNextTaskQueue_least_loaded_witness :
    considered 11 15 (some 0) 3 ∧
    ((fun i => if i = 1 then 5 else if i = 3 then 2 else 9) 3 ≤
      (fun i => if i = 1 then 5 else if i = 3 then 2 else 9) 1 ∧
     ((fun i => if i = 1 then 5 else if i = 3 then 2 else 9) 1 ≤
      (fun i => if i = 1 then 5 else if i = 3 then 2 else 9) 3 → 3 ≤ 1)) := by
  have h := (selectNextTaskQueue_least_loaded 11 15
    (fun i => if i = 1 then 5 else if i = 3 then 2 else 9) (some 0)).1 3 rfl
  exact ⟨h.1, h.2 1 ⟨by decide, by decide, by decide⟩⟩

/-! ## Task::Start -/

/-- C7: every successful `Task::Start` writes an initial frame whose `RDI`
is the task pointer, whose `RFLAGS` has exactly the IF bit (bit 9) set and
whose return address is the trampoline `Task::Exec`, and the task state is
`StateWaiting` at the moment it is enqueued. -/
theorem start_initial_frame (hash : Tid → Nat) (allocOk : Bool) (addr : Nat)
    (t : Tid) (tk tk1 : TaskFields) (s s1 : TTState)
    (f c execAddr taskPtr running affinity : Nat)
    (counters : Nat → Nat) (current : Option Nat) (q : Nat)
    (hprep : prepareStart hash allocOk addr t tk s f c = some (true, tk1, s1))
    (hsel : selectNextTaskQueue running affinity counters current = some q) :
    start hash allocOk addr t tk s f c execAddr taskPtr running affinity
      counters current =
      StartResult.ok ⟨execAddr, ⟨taskPtr, 2 ^ 9⟩⟩ StateWaiting q := by
  unfold start
  rw [hprep, hsel]
  rfl

/-- Witness for C7 on the concrete one-slot table with CPU 0 running. -/
theorem start_initial_frame_witness :
    start (fun _ => 0) true 4096 0 ⟨none, none, 0⟩ exTT 7 3 11 13 1 1
      (fun _ => 0) none =
      StartResult.ok ⟨11, ⟨13, 2 ^ 9⟩⟩ StateWaiting 0 :=
  start_initial_frame (fun _ => 0) true 4096 0 ⟨none, none, 0⟩
    ⟨some 4096, some 7, 3⟩ exTT exTT1 7 3 11 13 1 1 (fun _ => 0) none 0 rfl rfl

/-- C3 (code bug): with an affinity mask whose intersection with
`GetRunningCpus()` is empty, `SelectNextTaskQueue` returns null as
specified — but `Task::Start` does not treat this as failure: it
dereferences the null queue pointer (`taskQueue->Insert(this)` at
task.cpp:157 with `taskQueue == nullptr`), so the embedding evaluates to a
crash rather than returning `false`. -/
theorem start_null_queue_crash :
    selectNextTaskQueue 1 0 (fun _ => 0) none = none ∧
    start (fun _ => 0) true 4096 0 ⟨none, none, 0⟩ exTT 7 3 11 13 1 0
      (fun _ => 0) none = StartResult.crash :=
  ⟨rfl, rfl⟩

/-! ## Task release path -/

/-- C10: when `Task::Put` drops the last reference without tripping a
`BugOn`, the task's queue back-pointer is already null — a task is never
released while it still belongs to a `TaskQueue` — and the release frees
the owned stack exactly once before the task object is destroyed (the
destructor's own assertions then pass). -/
theorem put_last_reference_release (t : TaskLife)
    (href : t.refc = 1) (hnb : put t ≠ PutResult.bug) :
    t.queue = none ∧
    put t = PutResult.destroyed (if t.stack = none then 0 else 1) := by
  by_cases hq : t.queue = none
  · refine ⟨hq, ?_⟩
    unfold put release destruct
    rw [href]
    cases hs : t.stack with
    | some a => simp [hq, hs]
    | none => simp [hq, hs]
  · exfalso
    apply hnb
    unfold put release
    rw [href]
    simp [hq]

/-- Witness for C10: a task with one reference, no queue and a stack is
destroyed with exactly one stack free. -/
theorem put_last_reference_release_witness :
    (⟨1, none, some 5⟩ : TaskLife).queue = none ∧
    put ⟨1, none, some 5⟩ =
      PutResult.destroyed
        (if (⟨1, none, some 5⟩ : TaskLife).stack = none then 0 else 1) :=
  put_last_reference_release ⟨1, none, some 5⟩ rfl (by decide)

/-! ## Stack-rooted GetCurrentTask -/

theorem div_add_of_lt_pow {b off k i : Nat} (hb : b % 2 ^ k = 0)
    (hoff : off < 2 ^ k) (hki : k ≤ i) :
    (b + off) / 2 ^ i = b / 2 ^ i := by
  obtain ⟨q, hq⟩ := Nat.dvd_of_mod_eq_zero hb
  subst hq
  have h2k : 0 < 2 ^ k := Nat.two_pow_pos k
  have hi : (2:Nat) ^ i = 2 ^ k * 2 ^ (i - k) := by
    rw [← Nat.pow_add]
    congr 1
    omega
  rw [hi, ← Nat.div_div_eq_div_mul, ← Nat.div_div_eq_div_mul]
  congr 1
  rw [Nat.mul_add_div h2k, Nat.div_eq_of_lt hoff, Nat.add_zero,
    Nat.mul_div_cancel_left _ h2k]

theorem testBit_mul_pow_lt {y k i : Nat} (h : i < k) :
    (2 ^ k * y).testBit i = false := by
  rw [Nat.testBit_to_div_mod]
  have hdiv : 2 ^ k * y / 2 ^ i = 2 ^ (k - i) * y := by
    rw [show (2:Nat) ^ k = 2 ^ i * 2 ^ (k - i) from by
        rw [← Nat.pow_add]; congr 1; omega,
      Nat.mul_assoc, Nat.mul_div_cancel_left _ (Nat.two_pow_pos i)]
  have hdvd : (2:Nat) ∣ 2 ^ (k - i) * y :=
    Dvd.dvd.mul_right (dvd_pow_self 2 (by omega)) y
  have hmod : 2 ^ (k - i) * y % 2 = 0 := Nat.mod_eq_zero_of_dvd hdvd
  rw [hdiv, hmod]
  simp

theorem testBit_mul_pow_ge {y k i : Nat} (h : k ≤ i) :
    (2 ^ k * y).testBit i = y.testBit (i - k) := by
  rw [Nat.testBit_to_div_mod, Nat.testBit_to_div_mod]
  have hdiv : 2 ^ k * y / 2 ^ i = y / 2 ^ (i - k) := by
    rw [show (2:Nat) ^ i = 2 ^ k * 2 ^ (i - k) from by
        rw [← Nat.pow_add]; congr 1; omega,
      ← Nat.div_div_eq_div_mul, Nat.mul_div_cancel_left _ (Nat.two_pow_pos k)]
  rw [hdiv]

theorem land_mask_of_aligned {base off k : Nat} (hk64 : k ≤ 64)
    (halign : base % 2 ^ k = 0) (hoff : off < 2 ^ k)
    (hcap : base + 2 ^ k ≤ 2 ^ 64) :
    Nat.land (base + off) (2 ^ 64 - 2 ^ k) = base := by
  have h1 : (2:Nat) ^ 64 = 2 ^ k * 2 ^ (64 - k) := by
    rw [← Nat.pow_add]
    congr 1
    omega
  have hmask : (2:Nat) ^ 64 - 2 ^ k = 2 ^ k * (2 ^ (64 - k) - 1) := by
    rw [Nat.mul_sub, Nat.mul_one, ← h1]
  apply Nat.eq_of_testBit_eq
  intro i
  show ((base + off) &&& (2 ^ 64 - 2 ^ k)).testBit i = base.testBit i
  rw [Nat.testBit_land, hmask]
  obtain ⟨q, hq⟩ := Nat.dvd_of_mod_eq_zero halign
  by_cases hik : i < k
  · rw [testBit_mul_pow_lt hik, Bool.and_false, hq]
    exact (testBit_mul_pow_lt hik).symm
  · have hki := Nat.le_of_not_lt hik
    by_cases hi64 : i < 64
    · rw [testBit_mul_pow_ge hki, Nat.testBit_two_pow_sub_one,
        decide_eq_true (by omega : i - k < 64 - k), Bool.and_true,
        Nat.testBit_to_div_mod, Nat.testBit_to_div_mod,
        div_add_of_lt_pow halign hoff hki]
    · have h2k : 0 < 2 ^ k := Nat.two_pow_pos k
      have hpow : (2:Nat) ^ 64 ≤ 2 ^ i :=
        Nat.pow_le_pow_right (by omega) (Nat.le_of_not_lt hi64)
      have hmlt : 2 ^ k * (2 ^ (64 - k) - 1) < 2 ^ i := by
        rw [← hmask]
        have := Nat.two_pow_pos 64
        omega
      rw [Nat.testBit_eq_false_of_lt hmlt, Bool.and_false]
      have hblt : base < 2 ^ i := by omega
      exact (Nat.testBit_eq_false_of_lt hblt).symm

/-- C9: for a task `t` executing on its own `StackSize`-aligned stack with
`rsp` strictly between the header end and the stack top and all magics
intact, `GetCurrentTask` recovers `t` from `rsp` alone by masking with
`~(StackSize-1)`; and whenever a magic mismatch or an out-of-range `rsp`
is detected, the function bug-checks (returns no task) instead of
returning a wrong one. -/
theorem getCurrentTask_recovers (stackSize pageSize bottomOff topOff k : Nat)
    (stackAt : Nat → StackHdr) (taskAt : Nat → TaskHdr) (base off t : Nat)
    (hk : stackSize = 2 ^ k) (hk64 : k ≤ 64)
    (halign : base % stackSize = 0)
    (hcap : base + stackSize ≤ 2 ^ 64)
    (hhdr : stackAt base = ⟨StackMagic1, t, StackMagic2⟩)
    (htask : (taskAt t).magic = TaskMagic)
    (hlo : bottomOff + pageSize ≤ off)
    (hhi : off ≤ topOff)
    (hstrict : off < stackSize) :
    getCurrentTask stackSize pageSize bottomOff topOff stackAt taskAt
      (base + off) = some t ∧
    (∀ rsp,
      ((stackAt (Nat.land rsp (2 ^ 64 - stackSize))).magic1 ≠ StackMagic1 ∨
       (stackAt (Nat.land rsp (2 ^ 64 - stackSize))).magic2 ≠ StackMagic2 ∨
       rsp < Nat.land rsp (2 ^ 64 - stackSize) + bottomOff + pageSize ∨
       Nat.land rsp (2 ^ 64 - stackSize) + topOff < rsp ∨
       (taskAt (stackAt (Nat.land rsp (2 ^ 64 - stackSize))).taskPtr).magic ≠
         TaskMagic) →
      getCurrentTask stackSize pageSize bottomOff topOff stackAt taskAt rsp =
        none) := by
  subst hk
  constructor
  · have hbase : Nat.land (base + off) (2 ^ 64 - 2 ^ k) = base :=
      land_mask_of_aligned hk64 halign hstrict hcap
    simp only [getCurrentTask]
    rw [hbase, hhdr]
    rw [if_neg (fun hh => hh rfl), if_neg (fun hh => hh rfl),
      if_neg (by omega), if_neg (by omega), if_neg (fun hh => hh htask)]
  · intro rsp hbad
    simp only [getCurrentTask]
    by_cases h1 : (stackAt (Nat.land rsp (2 ^ 64 - 2 ^ k))).magic1 ≠ StackMagic1
    · rw [if_pos h1]
    · rw [if_neg h1]
      by_cases h2 : (stackAt (Nat.land rsp (2 ^ 64 - 2 ^ k))).magic2 ≠ StackMagic2
      · rw [if_pos h2]
      · rw [if_neg h2]
        by_cases h3 : rsp < Nat.land rsp (2 ^ 64 - 2 ^ k) + bottomOff + pageSize
        · rw [if_pos h3]
        · rw [if_neg h3]
          by_cases h4 : Nat.land rsp (2 ^ 64 - 2 ^ k) + topOff < rsp
          · rw [if_pos h4]
          · rw [if_neg h4]
            by_cases h5 : (taskAt (stackAt (Nat.land rsp
                (2 ^ 64 - 2 ^ k))).taskPtr).magic ≠ TaskMagic
            · rw [if_pos h5]
            · exfalso
              rcases hbad with h | h | h | h | h
              exacts [h1 h, h2 h, h3 h, h4 h, h5 h]

/-- Witness for C9: a `16 KiB`-aligned stack at base `16384`, `rsp` in the
valid range recovering task `77`; and a wild `rsp = 3` whose header magic
does not match is rejected. -/
theorem getCurrentTask_recovers_witness :
    getCurrentTask 16384 4096 32 16384
      (fun a => if a = 16384 then ⟨StackMagic1, 77, StackMagic2⟩ else ⟨0, 0, 0⟩)
      (fun a => if a = 77 then ⟨TaskMagic⟩ else ⟨0⟩) (16384 + 5000) = some 77 ∧
    getCurrentTask 16384 4096 32 16384
      (fun a => if a = 16384 then ⟨StackMagic1, 77, StackMagic2⟩ else ⟨0, 0, 0⟩)
      (fun a => if a = 77 then ⟨TaskMagic⟩ else ⟨0⟩) 3 = none := by
  have h := getCurrentTask_recovers 16384 4096 32 16384 14
    (fun a => if a = 16384 then ⟨StackMagic1, 77, StackMagic2⟩ else ⟨0, 0, 0⟩)
    (fun a => if a = 77 then ⟨TaskMagic⟩ else ⟨0⟩) 16384 5000 77
    (by norm_num) (by norm_num) (by norm_num) (by norm_num) rfl rfl
    (by norm_num) (by norm_num) (by norm_num)
  exact ⟨h.1, h.2 3 (Or.inl (by decide))⟩

end Nos
